import Mathlib

set_option autoImplicit false

namespace K8sPython

/-! ## Untyped manifest documents

A manifest (`src/model.py`) is a nested JSON-like dictionary.  We embed it
as an inductive tree; object fields are ordered key/value lists, as Python
dicts preserve insertion order. -/

inductive JValue where
  | null
  | bool (b : Bool)
  | num (n : Int)
  | str (s : String)
  | arr (elems : List JValue)
  | obj (fields : List (String × JValue))
deriving Repr

/-- First value bound to key `k`, as Python dict lookup (keys are unique in
an actual Python dict). -/
def lookupField (k : String) : List (String × JValue) → Option JValue
  | [] => none
  | (k', v) :: rest => if k' = k then some v else lookupField k rest

mutual

/-- Deep merge of `jsonmerge.merge(base, head)` with the default strategies
used by `BaseObject.merge_partial_manifest` (src/model.py line 32): objects
merge key by key (recursing into keys present in both, keeping base-only
keys, appending head-only keys); every non-object value from `head`
replaces the base value wholesale. -/
def mergeJ : JValue → JValue → JValue
  | .obj base, .obj head =>
      .obj (mergeFields base head ++
        head.filter (fun p => (lookupField p.1 base).isNone))
  | _, head => head

/-- Field-by-field part of `mergeJ` over the base object's fields. -/
def mergeFields : List (String × JValue) → List (String × JValue) → List (String × JValue)
  | [], _ => []
  | (k, v) :: rest, head =>
      (match lookupField k head with
       | some hv => (k, mergeJ v hv)
       | none => (k, v)) :: mergeFields rest head

end

/-- Keys of an object's field list are pairwise distinct (first key does
not reappear later, recursively).  Every document coming from a Python
dict satisfies this, since dict keys are unique. -/
def keysNodup : List (String × JValue) → Bool
  | [] => true
  | (k, _) :: rest => !(lookupField k rest).isSome && keysNodup rest

mutual

/-- Well-formedness of a document as produced by Python dicts: every object
node has pairwise-distinct keys. -/
def wfJ : JValue → Bool
  | .obj fs => keysNodup fs && wfFields fs
  | .arr xs => wfList xs
  | _ => true

/-- All field values of an object are well-formed. -/
def wfFields : List (String × JValue) → Bool
  | [] => true
  | (_, v) :: rest => wfJ v && wfFields rest

/-- All elements of an array are well-formed. -/
def wfList : List JValue → Bool
  | [] => true
  | v :: rest => wfJ v && wfList rest

end

/-- Python truthiness of a document value (`if partial_manifest:` and the
`not ...get("name")` checks in src/model.py): None, False, 0, empty string,
empty list and empty dict are falsy. -/
def pyTruthy : JValue → Bool
  | .null => false
  | .bool b => b
  | .num n => n != 0
  | .str s => !s.isEmpty
  | .arr xs => !xs.isEmpty
  | .obj fs => !fs.isEmpty

/-- Truthiness of a possibly-missing value (`dict.get` returns None when
the key is absent; Python treats None as falsy). -/
def optTruthy : Option JValue → Bool
  | none => false
  | some v => pyTruthy v

/-- Python exception kinds arising inside `__init__`: the AttributeError
from calling `.get` on a non-dict value, and the explicit `Exception(...)`
raised by the validation check. -/
inductive PyError where
  | attributeError
  | exception (msg : String)
deriving DecidableEq, Repr

/-- Python `d.get(k, default)`: dict lookup falling back to the default
only when the key is absent — a key bound to None yields None, not the
default; a non-dict receiver (None, string, number, list) has no `.get`
and raises AttributeError. -/
def pyGetD (v : JValue) (k : String) (dflt : JValue) : Except PyError JValue :=
  match v with
  | .obj fs => .ok ((lookupField k fs).getD dflt)
  | _ => .error .attributeError

/-- Python `d.get(k)` (None default), raising AttributeError on a
non-dict receiver. -/
def pyGet (v : JValue) (k : String) : Except PyError (Option JValue) :=
  match v with
  | .obj fs => .ok (lookupField k fs)
  | _ => .error .attributeError

/-- One arm `manifest.get("metadata", ...).get(key)` (empty-dict default)
of the validation check in `Pod.__init__` / `Deployment.__init__`
(src/model.py lines 69 and 200).  When the manifest binds "metadata" to a
non-dict value such as null, the outer `.get` returns that value and the
inner `.get` raises AttributeError. -/
def metaGet (m : JValue) (key : String) : Except PyError (Option JValue) :=
  match pyGetD m ("metadata") (.obj []) with
  | .error e => .error e
  | .ok meta => pyGet meta key

/-- The class attribute `_default_manifest` (an empty dict) of `Pod` and
`Deployment` (src/model.py lines 53 and 185). -/
def defaultManifest : JValue := .obj []

/-- Manifest assembly in `Pod.__init__` / `Deployment.__init__`
(src/model.py lines 61-67 and 192-198): take `body` if given, else the
default manifest; then, when the override document is truthy
(`if partial_manifest:`), deep-merge it on top. -/
def initManifest (defaultM : JValue) (body overrideDoc : Option JValue) : JValue :=
  let m := match body with
    | none => defaultM
    | some b => b
  match overrideDoc with
  | some pm => if pyTruthy pm then mergeJ m pm else m
  | none => m

/-- The remote API calls issued while running `Pod.__init__` /
`Deployment.__init__`: the constructor only builds local client/watch
objects, assembles and validates the manifest and deserializes it; it
contains no create/read/update/delete/watch request, so its remote-call
trace is empty on every path. -/
def initRemoteCalls (_body _overrideDoc : Option JValue) : List String := []

/-- The validation line of `Pod.__init__` / `Deployment.__init__`
(src/model.py lines 69-70 and 200-201): Python evaluates the name chain
first and `or` short-circuits, so the namespace chain runs only when the
name is truthy; a falsy (missing/empty) name or namespace raises the
validation Exception, a non-dict metadata value raises AttributeError out
of the constructor, and only when both checks pass is the model
deserialized from the manifest. -/
def initValidate (m : JValue) (errMsg : String) : Except PyError JValue :=
  match metaGet m ("name") with
  | .error e => .error e
  | .ok nameV =>
      if !optTruthy nameV then
        .error (.exception errMsg)
      else
        match metaGet m ("namespace") with
        | .error e => .error e
        | .ok nsV =>
            if !optTruthy nsV then
              .error (.exception errMsg)
            else
              .ok m

/-- Embedding of `Pod.__init__` (src/model.py lines 56-72): assemble the
manifest, then run the validation check. -/
def podInit (body overrideDoc : Option JValue) : Except PyError JValue :=
  initValidate (initManifest defaultManifest body overrideDoc)
    ("name & namespace both not specified while initializing pod")

/-- Embedding of `Deployment.__init__` (src/model.py lines 187-203), same
validation with the deployment error message. -/
def deploymentInit (body overrideDoc : Option JValue) : Except PyError JValue :=
  initValidate (initManifest defaultManifest body overrideDoc)
    ("name & namespace both not specified while initializing deployment")

/-! ## Watch events and the four readiness wait loops

Objects carried by watch events and by the typed models keep only the
fields the source code inspects: `metadata.name`, `metadata.uid`,
`status.phase` (pods), `spec.replicas` and `status.available_replicas`
(deployments).  Every field is optional, as it is on the Python client
models, and comparisons are Python `==` on possibly-None values, which is
`Option` equality (None == None is True). -/

/-- Pod object snapshot: `metadata.name`, `metadata.uid`, `status.phase`. -/
structure PodObj where
  name : Option String
  uid : Option String
  phase : Option String
deriving DecidableEq, Repr

/-- A watch change event for pods: `event["type"]` and `event["object"]`. -/
structure PodEvent where
  type : String
  object : PodObj
deriving DecidableEq, Repr

/-- Deployment object snapshot: `metadata.name`, `metadata.uid`,
`spec.replicas`, `status.available_replicas`. -/
structure DepObj where
  name : Option String
  uid : Option String
  replicas : Option Int
  availableReplicas : Option Int
deriving DecidableEq, Repr

/-- A watch change event for deployments. -/
structure DepEvent where
  type : String
  object : DepObj
deriving DecidableEq, Repr

/-- The empty `client.V1Pod()` model (all fields None). -/
def emptyPodObj : PodObj := ⟨none, none, none⟩

/-- The empty `client.V1Deployment()` model (all fields None). -/
def emptyDepObj : DepObj := ⟨none, none, none, none⟩

/-- Watch loop of `PodManager.ready` (src/class_demo.py lines 38-47),
instrumented with whether `self._watch.stop()` was called.  Branch order is
the source's: the readiness predicate (phase equal to Running and the
name match) is tested first, then `event["type"] == "DELETED"` — the
DELETED branch tests no name.  Falling off the loop (stream timeout)
returns Python None, embedded as `none`, without stopping the watch. -/
def podManagerReadyAux (selfName : Option String) : List PodEvent → Option Bool × Bool
  | [] => (none, false)
  | e :: rest =>
      if e.object.phase = some ("Running") ∧ e.object.name = selfName then
        (some true, true)
      else if e.type = "DELETED" then
        (some false, true)
      else
        podManagerReadyAux selfName rest

/-- Return value of `PodManager.ready`: True, False or None. -/
def podManagerReady (selfName : Option String) (events : List PodEvent) : Option Bool :=
  (podManagerReadyAux selfName events).1

/-- Watch loop of `DeploymentManager.ready` (src/class_demo.py lines
91-104): readiness is the name match plus
`status.available_replicas == spec.replicas`; the DELETED branch again
tests no name; stream timeout falls through to Python None. -/
def deploymentManagerReadyAux (selfName : Option String) (specReplicas : Option Int) :
    List DepEvent → Option Bool × Bool
  | [] => (none, false)
  | e :: rest =>
      if e.object.name = selfName ∧ e.object.availableReplicas = specReplicas then
        (some true, true)
      else if e.type = "DELETED" then
        (some false, true)
      else
        deploymentManagerReadyAux selfName specReplicas rest

/-- Return value of `DeploymentManager.ready`. -/
def deploymentManagerReady (selfName : Option String) (specReplicas : Option Int)
    (events : List DepEvent) : Option Bool :=
  (deploymentManagerReadyAux selfName specReplicas events).1

/-- Wait loop of `Pod.create` with `wait_for_completion=True`
(src/model.py lines 117-129): readiness predicate first, then the DELETED
branch, which here does check `event["object"].metadata.name == self.name`;
after the stream ends the method logs a warning and returns False (second
component false: the watch was not stopped). -/
def podCreateWaitAux (selfName : Option String) : List PodEvent → Bool × Bool
  | [] => (false, false)
  | e :: rest =>
      if e.object.phase = some ("Running") ∧ e.object.name = selfName then
        (true, true)
      else if e.type = "DELETED" ∧ e.object.name = selfName then
        (false, true)
      else
        podCreateWaitAux selfName rest

/-- Return value of the `Pod.create` wait loop. -/
def podCreateWait (selfName : Option String) (events : List PodEvent) : Bool :=
  (podCreateWaitAux selfName events).1

/-- Wait loop of `Deployment.create` with `wait_for_completion=True`
(src/model.py lines 246-257): `status.available_replicas ==
self.model.spec.replicas` plus the name match, then the name-checked
DELETED branch; stream end prints and returns False. -/
def deploymentCreateWaitAux (selfName : Option String) (specReplicas : Option Int) :
    List DepEvent → Bool × Bool
  | [] => (false, false)
  | e :: rest =>
      if e.object.availableReplicas = specReplicas ∧ e.object.name = selfName then
        (true, true)
      else if e.type = "DELETED" ∧ e.object.name = selfName then
        (false, true)
      else
        deploymentCreateWaitAux selfName specReplicas rest

/-- Return value of the `Deployment.create` wait loop. -/
def deploymentCreateWait (selfName : Option String) (specReplicas : Option Int)
    (events : List DepEvent) : Bool :=
  (deploymentCreateWaitAux selfName specReplicas events).1

/-! ## Create, delete, enter and exit paths -/

/-- `Pod.create(wait_for_completion=True)` (src/model.py lines 111-131):
the model is replaced by the server's create response, then the wait loop
runs against the event stream; the returned pair is (wait-loop result,
model after create). -/
def podCreate (createResp : PodObj) (events : List PodEvent) : Bool × PodObj :=
  (podCreateWait createResp.name events, createResp)

/-- `Deployment.create(wait_for_completion=True)` (src/model.py lines
242-258); the wait loop compares against `self.model.spec.replicas`, i.e.
the replicas of the create response. -/
def deploymentCreate (createResp : DepObj) (events : List DepEvent) : Bool × DepObj :=
  (deploymentCreateWait createResp.name createResp.replicas events, createResp)

/-- Wait loop of `Pod.delete` with `wait_for_completion=True`
(src/model.py lines 140-149): on a DELETED event whose `metadata.uid`
equals the entity's uid, the watch stops, the model is reset to an empty
`V1Pod()` and the method returns True; stream end returns False leaving
the model in place. -/
def podDeleteWaitLoop (self : PodObj) : List PodEvent → Bool × PodObj
  | [] => (false, self)
  | e :: rest =>
      if e.type = "DELETED" ∧ e.object.uid = self.uid then
        (true, emptyPodObj)
      else
        podDeleteWaitLoop self rest

/-- Non-waiting path of `Pod.delete` (src/model.py lines 150-152): the
model is reset to an empty `V1Pod()` and True is returned. -/
def podDeleteNoWait (_self : PodObj) : Bool × PodObj :=
  (true, emptyPodObj)

/-- Wait loop of `Deployment.delete` with `wait_for_completion=True`
(src/model.py lines 269-275): on a matching DELETED event the watch stops
and True is returned, but — unlike `Pod.delete` — the model is NOT reset;
stream end returns False. -/
def deploymentDeleteWaitLoop (self : DepObj) : List DepEvent → Bool × DepObj
  | [] => (false, self)
  | e :: rest =>
      if e.type = "DELETED" ∧ e.object.uid = self.uid then
        (true, self)
      else
        deploymentDeleteWaitLoop self rest

/-- Non-waiting path of `Deployment.delete` (src/model.py lines 276-277):
model reset to an empty `V1Deployment()`, returns True. -/
def deploymentDeleteNoWait (_self : DepObj) : Bool × DepObj :=
  (true, emptyDepObj)

/-- `PodManager.delete` (src/class_demo.py lines 28-31): issue the delete
call, reset `self.pod` to an empty `V1Pod()` and return True. -/
def podManagerDelete (_self : PodObj) : Bool × PodObj :=
  (true, emptyPodObj)

/-- Outcome of running a piece of Python code: a returned value or a
raised exception. -/
inductive PyResult (α : Type) where
  | ok (val : α)
  | exc (err : String)
deriving DecidableEq, Repr

/-- Python `with` statement semantics around a body outcome and the
`__exit__` call: if `__exit__` itself raises, that exception propagates
(replacing any body error); otherwise a body exception is suppressed
exactly when `__exit__` returned a truthy value (None, the value of a
bare `return`, is falsy). -/
def withStatement (body : PyResult Unit) (exitRes : PyResult (Option Bool)) : PyResult Unit :=
  match exitRes with
  | .exc e => .exc e
  | .ok v =>
      match body with
      | .ok _ => .ok ()
      | .exc e => if v.getD false then .ok () else .exc e

/-- `PodManager.__exit__` (src/class_demo.py lines 70-71): it returns the
result of `PodManager.delete`, whose API call may raise; when the call
returns, `delete` returns True, so `__exit__` returns True. -/
def podManagerExit (deleteApiError : Option String) : PyResult (Option Bool) :=
  match deleteApiError with
  | some e => .exc e
  | none => .ok (some ((podManagerDelete emptyPodObj).1))

/-- `Pod.delete(wait_for_completion=True)` as called from `Pod.__exit__`:
the remote delete call may raise; otherwise the wait loop consumes the
stream. -/
def podDelete (self : PodObj) (deleteApiError : Option String) (events : List PodEvent) :
    PyResult (Bool × PodObj) :=
  match deleteApiError with
  | some e => .exc e
  | none => .ok (podDeleteWaitLoop self events)

/-- `Deployment.delete(wait_for_completion=True)` as called from
`Deployment.__exit__`. -/
def deploymentDelete (self : DepObj) (deleteApiError : Option String)
    (events : List DepEvent) : PyResult (Bool × DepObj) :=
  match deleteApiError with
  | some e => .exc e
  | none => .ok (deploymentDeleteWaitLoop self events)

/-- `Pod.__exit__` (src/model.py lines 178-180): run `delete`; when it
returns False, print a report; the method body has no `return`, so the
`__exit__` value is Python None.  Second component: the printed lines. -/
def podExit (self : PodObj) (deleteApiError : Option String) (events : List PodEvent) :
    PyResult (Option Bool) × List String :=
  match podDelete self deleteApiError events with
  | .exc e => (.exc e, [])
  | .ok r => if r.1 then (.ok none, []) else (.ok none, ["unable to delete pod"])

/-- `Deployment.__exit__` (src/model.py lines 288-290). -/
def deploymentExit (self : DepObj) (deleteApiError : Option String)
    (events : List DepEvent) : PyResult (Option Bool) × List String :=
  match deploymentDelete self deleteApiError events with
  | .exc e => (.exc e, [])
  | .ok r => if r.1 then (.ok none, []) else (.ok none, ["unable to delete deployment"])

/-- `PodManager.__enter__` (src/class_demo.py lines 61-68): `create`
replaces `self.pod` with the server response, `ready` consumes the event
stream, and `self` is returned from both branches of `if self.ready():`
(False and the fall-through None are both falsy).  The first component is
the handle given to the `with` body, the second the printed lines. -/
def podManagerEnter (createResp : PodObj) (events : List PodEvent) :
    Option PodObj × List String :=
  match podManagerReady createResp.name events with
  | some true => (some createResp, [])
  | _ => (some createResp, ["unable to get pod ready"])

/-- `Pod.__enter__` (src/model.py lines 171-176). -/
def podEnter (createResp : PodObj) (events : List PodEvent) :
    Option PodObj × List String :=
  let r := podCreate createResp events
  if r.1 then (some r.2, []) else (some r.2, ["unable to get pod ready"])

/-- `Deployment.__enter__` (src/model.py lines 282-286); the else branch
prints nothing. -/
def deploymentEnter (createResp : DepObj) (events : List DepEvent) :
    Option DepObj × List String :=
  let r := deploymentCreate createResp events
  if r.1 then (some r.2, []) else (some r.2, [])

/-! ## Helper lemmas about the wait loops -/

/-- An event firing neither branch of `PodManager.ready` is skipped. -/
theorem podManagerReadyAux_skip (n : Option String) (e : PodEvent) (rest : List PodEvent)
    (h1 : ¬(e.object.phase = some ("Running") ∧ e.object.name = n))
    (h2 : e.type ≠ "DELETED") :
    podManagerReadyAux n (e :: rest) = podManagerReadyAux n rest := by
  simp [podManagerReadyAux, h1, h2]

/-- A whole run of skipped events in front of the stream is ignored by
`PodManager.ready`. -/
theorem podManagerReadyAux_append (n : Option String) (pre s : List PodEvent)
    (h : ∀ e ∈ pre, ¬(e.object.phase = some ("Running") ∧ e.object.name = n) ∧
      e.type ≠ "DELETED") :
    podManagerReadyAux n (pre ++ s) = podManagerReadyAux n s := by
  induction pre with
  | nil => rfl
  | cons e pre ih =>
      have he := h e (by simp)
      rw [List.cons_append, podManagerReadyAux_skip n e (pre ++ s) he.1 he.2]
      exact ih fun x hx => h x (by simp [hx])

/-- Once `PodManager.ready` has stopped the watch, events appended after
the resolving one do not change the result. -/
theorem podManagerReadyAux_stable (n : Option String) (s t : List PodEvent)
    (h : (podManagerReadyAux n s).2 = true) :
    podManagerReadyAux n (s ++ t) = podManagerReadyAux n s := by
  induction s with
  | nil => simp [podManagerReadyAux] at h
  | cons e rest ih =>
      by_cases h1 : e.object.phase = some ("Running") ∧ e.object.name = n
      · simp [podManagerReadyAux, h1]
      · by_cases h2 : e.type = "DELETED"
        · simp [podManagerReadyAux, h1, h2]
        · have h' : (podManagerReadyAux n rest).2 = true := by
            simpa [podManagerReadyAux, h1, h2] using h
          simp [podManagerReadyAux, h1, h2, ih h']

/-- A True result of `PodManager.ready` comes from a first
predicate-matching event preceded only by skipped events. -/
theorem podManagerReadyAux_ready_split (n : Option String) (s : List PodEvent)
    (h : (podManagerReadyAux n s).1 = some true) :
    ∃ pre d post, s = pre ++ d :: post ∧
      (d.object.phase = some ("Running") ∧ d.object.name = n) ∧
      ∀ e ∈ pre, ¬(e.object.phase = some ("Running") ∧ e.object.name = n) ∧
        e.type ≠ "DELETED" := by
  induction s with
  | nil => simp [podManagerReadyAux] at h
  | cons e rest ih =>
      by_cases h1 : e.object.phase = some ("Running") ∧ e.object.name = n
      · exact ⟨[], e, rest, rfl, h1, by simp⟩
      · by_cases h2 : e.type = "DELETED"
        · simp [podManagerReadyAux, h1, h2] at h
        · have h' : (podManagerReadyAux n rest).1 = some true := by
            simpa [podManagerReadyAux, h1, h2] using h
          obtain ⟨pre, d, post, hs, hd, hpre⟩ := ih h'
          refine ⟨e :: pre, d, post, by simp [hs], hd, ?_⟩
          intro x hx
          rcases List.mem_cons.mp hx with hx | hx
          · exact hx ▸ ⟨h1, h2⟩
          · exact hpre x hx

/-- An event firing neither branch of the `Pod.create` wait loop is
skipped. -/
theorem podCreateWaitAux_skip (n : Option String) (e : PodEvent) (rest : List PodEvent)
    (h1 : ¬(e.object.phase = some ("Running") ∧ e.object.name = n))
    (h2 : ¬(e.type = "DELETED" ∧ e.object.name = n)) :
    podCreateWaitAux n (e :: rest) = podCreateWaitAux n rest := by
  simp [podCreateWaitAux, h1, h2]

/-- A run of skipped events in front of the stream is ignored by the
`Pod.create` wait loop. -/
theorem podCreateWaitAux_append (n : Option String) (pre s : List PodEvent)
    (h : ∀ e ∈ pre, ¬(e.object.phase = some ("Running") ∧ e.object.name = n) ∧
      ¬(e.type = "DELETED" ∧ e.object.name = n)) :
    podCreateWaitAux n (pre ++ s) = podCreateWaitAux n s := by
  induction pre with
  | nil => rfl
  | cons e pre ih =>
      have he := h e (by simp)
      rw [List.cons_append, podCreateWaitAux_skip n e (pre ++ s) he.1 he.2]
      exact ih fun x hx => h x (by simp [hx])

/-- Once the `Pod.create` wait loop has stopped the watch, later events do
not change the result. -/
theorem podCreateWaitAux_stable (n : Option String) (s t : List PodEvent)
    (h : (podCreateWaitAux n s).2 = true) :
    podCreateWaitAux n (s ++ t) = podCreateWaitAux n s := by
  induction s with
  | nil => simp [podCreateWaitAux] at h
  | cons e rest ih =>
      by_cases h1 : e.object.phase = some ("Running") ∧ e.object.name = n
      · simp [podCreateWaitAux, h1]
      · by_cases h2 : e.type = "DELETED" ∧ e.object.name = n
        · simp [podCreateWaitAux, h1, h2]
        · have h' : (podCreateWaitAux n rest).2 = true := by
            simpa [podCreateWaitAux, h1, h2] using h
          simp [podCreateWaitAux, h1, h2, ih h']

/-- A True result of the `Pod.create` wait loop comes from a first
predicate-matching event preceded only by skipped events. -/
theorem podCreateWaitAux_ready_split (n : Option String) (s : List PodEvent)
    (h : (podCreateWaitAux n s).1 = true) :
    ∃ pre d post, s = pre ++ d :: post ∧
      (d.object.phase = some ("Running") ∧ d.object.name = n) ∧
      ∀ e ∈ pre, ¬(e.object.phase = some ("Running") ∧ e.object.name = n) ∧
        ¬(e.type = "DELETED" ∧ e.object.name = n) := by
  induction s with
  | nil => simp [podCreateWaitAux] at h
  | cons e rest ih =>
      by_cases h1 : e.object.phase = some ("Running") ∧ e.object.name = n
      · exact ⟨[], e, rest, rfl, h1, by simp⟩
      · by_cases h2 : e.type = "DELETED" ∧ e.object.name = n
        · have hph : e.object.phase ≠ some ("Running") := fun hp => h1 ⟨hp, h2.2⟩
          simp [podCreateWaitAux, hph, h2] at h
        · have h' : (podCreateWaitAux n rest).1 = true := by
            simpa [podCreateWaitAux, h1, h2] using h
          obtain ⟨pre, d, post, hs, hd, hpre⟩ := ih h'
          refine ⟨e :: pre, d, post, by simp [hs], hd, ?_⟩
          intro x hx
          rcases List.mem_cons.mp hx with hx | hx
          · exact hx ▸ ⟨h1, h2⟩
          · exact hpre x hx

/-- An event firing neither branch of `DeploymentManager.ready` is
skipped. -/
theorem deploymentManagerReadyAux_skip (n : Option String) (r : Option Int)
    (e : DepEvent) (rest : List DepEvent)
    (h1 : ¬(e.object.name = n ∧ e.object.availableReplicas = r))
    (h2 : e.type ≠ "DELETED") :
    deploymentManagerReadyAux n r (e :: rest) = deploymentManagerReadyAux n r rest := by
  simp [deploymentManagerReadyAux, h1, h2]

/-- An event firing neither branch of the `Deployment.create` wait loop is
skipped. -/
theorem deploymentCreateWaitAux_skip (n : Option String) (r : Option Int)
    (e : DepEvent) (rest : List DepEvent)
    (h1 : ¬(e.object.availableReplicas = r ∧ e.object.name = n))
    (h2 : ¬(e.type = "DELETED" ∧ e.object.name = n)) :
    deploymentCreateWaitAux n r (e :: rest) = deploymentCreateWaitAux n r rest := by
  simp [deploymentCreateWaitAux, h1, h2]

/-- A run of skipped events in front of the stream is ignored by
`DeploymentManager.ready`. -/
theorem deploymentManagerReadyAux_append (n : Option String) (r : Option Int)
    (pre s : List DepEvent)
    (h : ∀ e ∈ pre, ¬(e.object.name = n ∧ e.object.availableReplicas = r) ∧
      e.type ≠ "DELETED") :
    deploymentManagerReadyAux n r (pre ++ s) = deploymentManagerReadyAux n r s := by
  induction pre with
  | nil => rfl
  | cons e pre ih =>
      have he := h e (by simp)
      rw [List.cons_append, deploymentManagerReadyAux_skip n r e (pre ++ s) he.1 he.2]
      exact ih fun x hx => h x (by simp [hx])

/-- A run of skipped events in front of the stream is ignored by the
`Deployment.create` wait loop. -/
theorem deploymentCreateWaitAux_append (n : Option String) (r : Option Int)
    (pre s : List DepEvent)
    (h : ∀ e ∈ pre, ¬(e.object.availableReplicas = r ∧ e.object.name = n) ∧
      ¬(e.type = "DELETED" ∧ e.object.name = n)) :
    deploymentCreateWaitAux n r (pre ++ s) = deploymentCreateWaitAux n r s := by
  induction pre with
  | nil => rfl
  | cons e pre ih =>
      have he := h e (by simp)
      rw [List.cons_append, deploymentCreateWaitAux_skip n r e (pre ++ s) he.1 he.2]
      exact ih fun x hx => h x (by simp [hx])

/-! ## Helper lemmas about lookup and merge -/

/-- Looking up the key of a member of the field list finds something. -/
theorem lookupField_isSome_of_mem (k : String) (v : JValue)
    (l : List (String × JValue)) (h : (k, v) ∈ l) :
    (lookupField k l).isSome = true := by
  induction l with
  | nil => simp at h
  | cons q rest ih =>
      obtain ⟨k', v'⟩ := q
      by_cases hk : k' = k
      · simp [lookupField, hk]
      · rcases List.mem_cons.mp h with hq | hq
        · rw [Prod.mk.injEq] at hq
          exact absurd hq.1.symm hk
        · simpa [lookupField, hk] using ih hq

/-- A successful lookup yields a member of the field list. -/
theorem mem_of_lookupField (k : String) (v : JValue) (l : List (String × JValue))
    (h : lookupField k l = some v) : (k, v) ∈ l := by
  induction l with
  | nil => simp [lookupField] at h
  | cons q rest ih =>
      obtain ⟨k', v'⟩ := q
      by_cases hk : k' = k
      · subst hk
        simp [lookupField] at h
        subst h
        exact List.mem_cons_self _ _
      · simp [lookupField, hk] at h
        exact List.mem_cons_of_mem _ (ih h)

/-- With pairwise-distinct keys, lookup of a member's key returns exactly
that member's value. -/
theorem lookupField_eq_of_nodup (k : String) (v : JValue)
    (l : List (String × JValue)) (hnd : keysNodup l = true) (h : (k, v) ∈ l) :
    lookupField k l = some v := by
  induction l with
  | nil => simp at h
  | cons q rest ih =>
      obtain ⟨k', v'⟩ := q
      have hnd' : (lookupField k' rest).isSome = false ∧ keysNodup rest = true := by
        simpa [keysNodup, Bool.and_eq_true] using hnd
      rcases List.mem_cons.mp h with hq | hq
      · rw [Prod.mk.injEq] at hq
        obtain ⟨h1, h2⟩ := hq
        subst h1; subst h2
        simp [lookupField]
      · by_cases hk : k' = k
        · subst hk
          exact absurd (lookupField_isSome_of_mem _ v rest hq) (by simp [hnd'.1])
        · simp [lookupField, hk]
          exact ih hnd'.2 hq

/-- Lookup in an appended field list tries the left part first. -/
theorem lookupField_append (k : String) (a b : List (String × JValue)) :
    lookupField k (a ++ b) =
      match lookupField k a with
      | some v => some v
      | none => lookupField k b := by
  induction a with
  | nil => simp [lookupField]
  | cons q rest ih =>
      obtain ⟨k', v'⟩ := q
      by_cases hk : k' = k <;> simp [lookupField, hk, ih]

/-- Merging preserves which keys of the base are present. -/
theorem lookupField_mergeFields_isSome (k : String)
    (base head : List (String × JValue)) :
    (lookupField k (mergeFields base head)).isSome = (lookupField k base).isSome := by
  induction base with
  | nil => simp [mergeFields, lookupField]
  | cons q rest ih =>
      obtain ⟨k', v'⟩ := q
      by_cases hk : k' = k
      · subst hk
        cases hl : lookupField k' head with
        | some hv => simp [mergeFields, hl, lookupField]
        | none => simp [mergeFields, hl, lookupField]
      · cases hl : lookupField k' head with
        | some hv => simp [mergeFields, hl, lookupField, hk, ih]
        | none => simp [mergeFields, hl, lookupField, hk, ih]

/-- Every member of a merged field list is a base member with its value
merged against the head's value at the same key (if any). -/
theorem mem_mergeFields (k : String) (w : JValue)
    (base head : List (String × JValue)) (h : (k, w) ∈ mergeFields base head) :
    ∃ v, (k, v) ∈ base ∧
      w = (match lookupField k head with
           | some hv => mergeJ v hv
           | none => v) := by
  induction base with
  | nil => simp [mergeFields] at h
  | cons q rest ih =>
      obtain ⟨k', v'⟩ := q
      cases hl : lookupField k' head with
      | some hv =>
          simp only [mergeFields, hl, List.mem_cons, Prod.mk.injEq] at h
          rcases h with ⟨h1, h2⟩ | hq
          · subst h1
            refine ⟨v', List.mem_cons_self _ _, ?_⟩
            rw [hl]
            exact h2
          · obtain ⟨v, hvmem, hw⟩ := ih hq
            exact ⟨v, List.mem_cons_of_mem _ hvmem, hw⟩
      | none =>
          simp only [mergeFields, hl, List.mem_cons, Prod.mk.injEq] at h
          rcases h with ⟨h1, h2⟩ | hq
          · subst h1
            refine ⟨v', List.mem_cons_self _ _, ?_⟩
            rw [hl]
            exact h2
          · obtain ⟨v, hvmem, hw⟩ := ih hq
            exact ⟨v, List.mem_cons_of_mem _ hvmem, hw⟩

/-- A field list is untouched by merging when each of its entries absorbs
the head's value at its key. -/
theorem mergeFields_eq_self (L head : List (String × JValue))
    (h : ∀ (k : String) (v : JValue), (k, v) ∈ L →
      (match lookupField k head with
       | some hv => mergeJ v hv = v
       | none => True)) :
    mergeFields L head = L := by
  induction L with
  | nil => rfl
  | cons q rest ih =>
      obtain ⟨k, v⟩ := q
      have hq := h k v (List.mem_cons_self _ _)
      cases hl : lookupField k head with
      | some hv =>
          rw [hl] at hq
          simp only [mergeFields, hl]
          rw [hq]
          exact congrArg _ (ih fun k' v' hp => h k' v' (List.mem_cons_of_mem _ hp))
      | none =>
          simp only [mergeFields, hl]
          exact congrArg _ (ih fun k' v' hp => h k' v' (List.mem_cons_of_mem _ hp))

/-- The value of a member entry is smaller than the whole field list. -/
theorem sizeOf_val_lt_of_mem (k : String) (v : JValue)
    (fs : List (String × JValue)) (h : (k, v) ∈ fs) : sizeOf v < sizeOf fs := by
  induction fs with
  | nil => simp at h
  | cons q rest ih =>
      obtain ⟨k', v'⟩ := q
      rcases List.mem_cons.mp h with hq | hq
      · rw [Prod.mk.injEq] at hq
        obtain ⟨h1, h2⟩ := hq
        subst h1; subst h2
        simp_arith
      · have := ih hq
        simp_arith
        omega

/-- Field-list well-formedness passes to every member's value. -/
theorem wfFields_val (fs : List (String × JValue)) (hw : wfFields fs = true)
    (k : String) (v : JValue) (h : (k, v) ∈ fs) : wfJ v = true := by
  induction fs with
  | nil => simp at h
  | cons q rest ih =>
      obtain ⟨k', v'⟩ := q
      have hw' : wfJ v' = true ∧ wfFields rest = true := by
        simpa [wfFields, Bool.and_eq_true] using hw
      rcases List.mem_cons.mp h with hq | hq
      · rw [Prod.mk.injEq] at hq
        rw [hq.2]
        exact hw'.1
      · exact ih hw'.2 hq

/-- Merging a well-formed document with itself is the identity. -/
theorem mergeJ_self_aux : ∀ (N : Nat) (x : JValue), sizeOf x ≤ N → wfJ x = true →
    mergeJ x x = x := by
  intro N
  induction N with
  | zero =>
      intro x hx _
      exfalso
      cases x <;> simp_arith at hx
  | succ N ih =>
      intro x hx hwf
      cases x with
      | null => rfl
      | bool b => rfl
      | num n => rfl
      | str s => rfl
      | arr xs => rfl
      | obj fs =>
          have hparts : keysNodup fs = true ∧ wfFields fs = true := by
            simpa [wfJ, Bool.and_eq_true] using hwf
          have hszN : sizeOf fs ≤ N := by
            have : 1 + sizeOf fs ≤ N + 1 := by simpa using hx
            omega
          have hfilter : fs.filter (fun p => (lookupField p.1 fs).isNone) = [] := by
            apply List.filter_eq_nil_iff.mpr
            intro p hp
            obtain ⟨k, v⟩ := p
            obtain ⟨w, hw⟩ :=
              Option.isSome_iff_exists.mp (lookupField_isSome_of_mem k v fs hp)
            simp [hw]
          have hmf : mergeFields fs fs = fs := by
            apply mergeFields_eq_self
            intro k v hkv
            rw [lookupField_eq_of_nodup k v fs hparts.1 hkv]
            apply ih v ?_ (wfFields_val fs hparts.2 k v hkv)
            have := sizeOf_val_lt_of_mem k v fs hkv
            omega
          show JValue.obj
              (mergeFields fs fs ++ fs.filter fun p => (lookupField p.1 fs).isNone) =
            JValue.obj fs
          rw [hmf, hfilter, List.append_nil]

/-- Merging the merged document with the same override again changes
nothing, provided the override is well-formed. -/
theorem mergeJ_idem_aux : ∀ (N : Nat) (p : JValue), sizeOf p ≤ N → wfJ p = true →
    ∀ b : JValue, mergeJ (mergeJ b p) p = mergeJ b p := by
  intro N
  induction N with
  | zero =>
      intro p hp _ _
      exfalso
      cases p <;> simp_arith at hp
  | succ N ih =>
      intro p hp hwf b
      cases p with
      | null => cases b <;> rfl
      | bool c => cases b <;> rfl
      | num n => cases b <;> rfl
      | str s => cases b <;> rfl
      | arr xs => cases b <;> rfl
      | obj h =>
          have hparts : keysNodup h = true ∧ wfFields h = true := by
            simpa [wfJ, Bool.and_eq_true] using hwf
          have hszN : sizeOf h ≤ N := by
            have : 1 + sizeOf h ≤ N + 1 := by simpa using hp
            omega
          cases b with
          | null => exact mergeJ_self_aux (N + 1) (.obj h) hp hwf
          | bool c => exact mergeJ_self_aux (N + 1) (.obj h) hp hwf
          | num n => exact mergeJ_self_aux (N + 1) (.obj h) hp hwf
          | str s => exact mergeJ_self_aux (N + 1) (.obj h) hp hwf
          | arr xs => exact mergeJ_self_aux (N + 1) (.obj h) hp hwf
          | obj base =>
              set M := mergeFields base h ++
                h.filter (fun q => (lookupField q.1 base).isNone) with hM
              have habsorb : ∀ (k : String) (w : JValue), (k, w) ∈ M →
                  (match lookupField k h with
                   | some hv => mergeJ w hv = w
                   | none => True) := by
                intro k w hkw
                rcases List.mem_append.mp hkw with hkw | hkw
                · obtain ⟨v, hvmem, hw⟩ := mem_mergeFields k w base h hkw
                  cases hl : lookupField k h with
                  | none => trivial
                  | some hv =>
                      rw [hl] at hw
                      subst hw
                      show mergeJ (mergeJ v hv) hv = mergeJ v hv
                      apply ih hv ?_ ?_ v
                      · have := sizeOf_val_lt_of_mem k hv h
                          (mem_of_lookupField k hv h hl)
                        omega
                      · exact wfFields_val h hparts.2 k hv
                          (mem_of_lookupField k hv h hl)
                · have hmem : (k, w) ∈ h := List.mem_of_mem_filter hkw
                  rw [lookupField_eq_of_nodup k w h hparts.1 hmem]
                  show mergeJ w w = w
                  apply mergeJ_self_aux N w ?_
                    (wfFields_val h hparts.2 k w hmem)
                  have := sizeOf_val_lt_of_mem k w h hmem
                  omega
              have hmfM : mergeFields M h = M := mergeFields_eq_self M h habsorb
              have hfilterM : h.filter (fun q => (lookupField q.1 M).isNone) = [] := by
                apply List.filter_eq_nil_iff.mpr
                intro q hq
                obtain ⟨k, v⟩ := q
                have hsome : (lookupField k M).isSome = true := by
                  rw [hM, lookupField_append]
                  cases hb : lookupField k (mergeFields base h) with
                  | some w => simp
                  | none =>
                      have hbase : (lookupField k base).isSome = false := by
                        rw [← lookupField_mergeFields_isSome k base h, hb]
                        rfl
                      have hqf : (k, v) ∈
                          h.filter (fun q => (lookupField q.1 base).isNone) := by
                        apply List.mem_filter.mpr
                        refine ⟨hq, ?_⟩
                        simp only [Option.isNone]
                        cases hbb : lookupField k base with
                        | none => rfl
                        | some w => rw [hbb] at hbase; simp at hbase
                      simpa using lookupField_isSome_of_mem k v _ hqf
                obtain ⟨w, hw⟩ := Option.isSome_iff_exists.mp hsome
                simp [hw]
              rw [show mergeJ (JValue.obj base) (JValue.obj h) = JValue.obj M from rfl]
              show JValue.obj
                  (mergeFields M h ++ h.filter fun q => (lookupField q.1 M).isNone) =
                JValue.obj M
              rw [hmfM, hfilterM, List.append_nil]

/-! ## Claims -/

/-- C1, counterexample.  The claim says a DELETED event whose identity
matches the target resolves the Deleted outcome (False) in every readiness
watch loop.  In `PodManager.ready` the readiness predicate is tested
before the event kind, so a DELETED event for the target whose snapshot
still has phase Running resolves True (Ready), not False. -/
theorem c1_counterexample :
    podManagerReady (some ("sample-pod"))
      [⟨"DELETED", ⟨some ("sample-pod"), none, some ("Running")⟩⟩] = some true ∧
    podManagerReady (some ("sample-pod"))
      [⟨"DELETED", ⟨some ("sample-pod"), none, some ("Running")⟩⟩] ≠ some false := by
  exact ⟨rfl, by decide⟩

/-- C1, amended.  In each of the four readiness watch loops
(`PodManager.ready`, `DeploymentManager.ready`, the `Pod.create` wait
loop, the `Deployment.create` wait loop), a DELETED event that matches the
target identity and whose snapshot does not satisfy the readiness
predicate resolves the Deleted outcome (False, watch stopped), even when
it arrives before any predicate-satisfying event — the preceding events
need only fire neither branch, the following events are arbitrary. -/
theorem c1_deleted_resolves_amended :
    (∀ (n : Option String) (pre post : List PodEvent) (d : PodEvent),
      (∀ e ∈ pre, ¬(e.object.phase = some ("Running") ∧ e.object.name = n) ∧
        e.type ≠ "DELETED") →
      d.type = "DELETED" → d.object.name = n → d.object.phase ≠ some ("Running") →
      podManagerReadyAux n (pre ++ d :: post) = (some false, true)) ∧
    (∀ (n : Option String) (r : Option Int) (pre post : List DepEvent) (d : DepEvent),
      (∀ e ∈ pre, ¬(e.object.name = n ∧ e.object.availableReplicas = r) ∧
        e.type ≠ "DELETED") →
      d.type = "DELETED" → d.object.name = n → d.object.availableReplicas ≠ r →
      deploymentManagerReadyAux n r (pre ++ d :: post) = (some false, true)) ∧
    (∀ (n : Option String) (pre post : List PodEvent) (d : PodEvent),
      (∀ e ∈ pre, ¬(e.object.phase = some ("Running") ∧ e.object.name = n) ∧
        ¬(e.type = "DELETED" ∧ e.object.name = n)) →
      d.type = "DELETED" → d.object.name = n → d.object.phase ≠ some ("Running") →
      podCreateWaitAux n (pre ++ d :: post) = (false, true)) ∧
    (∀ (n : Option String) (r : Option Int) (pre post : List DepEvent) (d : DepEvent),
      (∀ e ∈ pre, ¬(e.object.availableReplicas = r ∧ e.object.name = n) ∧
        ¬(e.type = "DELETED" ∧ e.object.name = n)) →
      d.type = "DELETED" → d.object.name = n → d.object.availableReplicas ≠ r →
      deploymentCreateWaitAux n r (pre ++ d :: post) = (false, true)) := by
  refine ⟨?_, ?_, ?_, ?_⟩
  · intro n pre post d hpre hd hdn hdp
    rw [podManagerReadyAux_append n pre (d :: post) hpre]
    simp [podManagerReadyAux, hd, hdp]
  · intro n r pre post d hpre hd hdn hdr
    rw [deploymentManagerReadyAux_append n r pre (d :: post) hpre]
    have h1 : ¬(d.object.name = n ∧ d.object.availableReplicas = r) :=
      fun hc => hdr hc.2
    simp [deploymentManagerReadyAux, hd, h1]
  · intro n pre post d hpre hd hdn hdp
    rw [podCreateWaitAux_append n pre (d :: post) hpre]
    simp [podCreateWaitAux, hd, hdn, hdp]
  · intro n r pre post d hpre hd hdn hdr
    rw [deploymentCreateWaitAux_append n r pre (d :: post) hpre]
    have h1 : ¬(d.object.availableReplicas = r ∧ d.object.name = n) :=
      fun hc => hdr hc.1
    simp [deploymentCreateWaitAux, hd, hdn, h1, hdr]

/-- C1, witness: a matching DELETED event with phase Pending, preceded by
an ignored Pending event and followed by a Running event, resolves the
Deleted outcome in `PodManager.ready` and in the `Pod.create` wait loop. -/
theorem c1_witness :
    podManagerReadyAux (some ("p"))
      ([⟨"MODIFIED", ⟨some ("p"), none, some ("Pending")⟩⟩] ++
        ⟨"DELETED", ⟨some ("p"), none, some ("Pending")⟩⟩ ::
        [⟨"MODIFIED", ⟨some ("p"), none, some ("Running")⟩⟩]) = (some false, true) ∧
    podCreateWaitAux (some ("p"))
      ([⟨"MODIFIED", ⟨some ("p"), none, some ("Pending")⟩⟩] ++
        ⟨"DELETED", ⟨some ("p"), none, some ("Pending")⟩⟩ ::
        [⟨"MODIFIED", ⟨some ("p"), none, some ("Running")⟩⟩]) = (false, true) := by
  constructor
  · exact c1_deleted_resolves_amended.1 (some ("p"))
      [⟨"MODIFIED", ⟨some ("p"), none, some ("Pending")⟩⟩]
      [⟨"MODIFIED", ⟨some ("p"), none, some ("Running")⟩⟩]
      ⟨"DELETED", ⟨some ("p"), none, some ("Pending")⟩⟩
      (by decide) rfl rfl (by decide)
  · exact c1_deleted_resolves_amended.2.2.1 (some ("p"))
      [⟨"MODIFIED", ⟨some ("p"), none, some ("Pending")⟩⟩]
      [⟨"MODIFIED", ⟨some ("p"), none, some ("Running")⟩⟩]
      ⟨"DELETED", ⟨some ("p"), none, some ("Pending")⟩⟩
      (by decide) rfl rfl (by decide)

/-- C2, counterexample.  The claim says an event whose name does not match
the target never resolves any outcome.  In `DeploymentManager.ready` the
DELETED branch checks no name, so a DELETED event for a different
deployment resolves the Deleted outcome — here it even pre-empts a later
matching Ready event. -/
theorem c2_counterexample :
    deploymentManagerReady (some ("nginx-deployment")) (some 3)
      [⟨"DELETED", ⟨some ("other"), none, none, none⟩⟩,
       ⟨"MODIFIED", ⟨some ("nginx-deployment"), none, some 3, some 3⟩⟩] = some false := by
  rfl

/-- C2, amended.  An identity-mismatched event never resolves through the
readiness-predicate branch of any of the four loops, and in the
`Pod.create` / `Deployment.create` wait loops the DELETED branch also
requires the name to match, so mismatched events are ignored entirely
there; but in `PodManager.ready` and `DeploymentManager.ready` the DELETED
branch checks no identity, so any DELETED event — matching or not —
resolves the Deleted outcome. -/
theorem c2_identity_filter_amended :
    (∀ (n : Option String) (e : PodEvent) (rest : List PodEvent),
      e.object.name ≠ n → e.type ≠ "DELETED" →
      podManagerReadyAux n (e :: rest) = podManagerReadyAux n rest) ∧
    (∀ (n : Option String) (r : Option Int) (e : DepEvent) (rest : List DepEvent),
      e.object.name ≠ n → e.type ≠ "DELETED" →
      deploymentManagerReadyAux n r (e :: rest) = deploymentManagerReadyAux n r rest) ∧
    (∀ (n : Option String) (e : PodEvent) (rest : List PodEvent),
      e.object.name ≠ n →
      podCreateWaitAux n (e :: rest) = podCreateWaitAux n rest) ∧
    (∀ (n : Option String) (r : Option Int) (e : DepEvent) (rest : List DepEvent),
      e.object.name ≠ n →
      deploymentCreateWaitAux n r (e :: rest) = deploymentCreateWaitAux n r rest) ∧
    (∀ (n : Option String) (e : PodEvent) (rest : List PodEvent),
      e.object.name ≠ n → e.type = "DELETED" →
      podManagerReadyAux n (e :: rest) = (some false, true)) ∧
    (∀ (n : Option String) (r : Option Int) (e : DepEvent) (rest : List DepEvent),
      e.object.name ≠ n → e.type = "DELETED" →
      deploymentManagerReadyAux n r (e :: rest) = (some false, true)) := by
  refine ⟨?_, ?_, ?_, ?_, ?_, ?_⟩
  · intro n e rest hn ht
    exact podManagerReadyAux_skip n e rest (fun hc => hn hc.2) ht
  · intro n r e rest hn ht
    exact deploymentManagerReadyAux_skip n r e rest (fun hc => hn hc.1) ht
  · intro n e rest hn
    exact podCreateWaitAux_skip n e rest (fun hc => hn hc.2) (fun hc => hn hc.2)
  · intro n r e rest hn
    exact deploymentCreateWaitAux_skip n r e rest (fun hc => hn hc.2) (fun hc => hn hc.2)
  · intro n e rest hn ht
    have h1 : ¬(e.object.phase = some ("Running") ∧ e.object.name = n) :=
      fun hc => hn hc.2
    simp [podManagerReadyAux, h1, ht]
  · intro n r e rest hn ht
    have h1 : ¬(e.object.name = n ∧ e.object.availableReplicas = r) :=
      fun hc => hn hc.1
    simp [deploymentManagerReadyAux, h1, ht]

/-- C2, witness: a mismatched MODIFIED event is skipped by
`PodManager.ready` and a mismatched event of any kind is skipped by the
`Pod.create` wait loop. -/
theorem c2_witness :
    podManagerReadyAux (some ("a"))
      (⟨"MODIFIED", ⟨some ("b"), none, some ("Running")⟩⟩ ::
        [⟨"MODIFIED", ⟨some ("a"), none, some ("Running")⟩⟩]) =
      podManagerReadyAux (some ("a"))
        [⟨"MODIFIED", ⟨some ("a"), none, some ("Running")⟩⟩] ∧
    podCreateWaitAux (some ("a"))
      (⟨"DELETED", ⟨some ("b"), none, some ("Pending")⟩⟩ :: []) =
      podCreateWaitAux (some ("a")) [] := by
  constructor
  · exact c2_identity_filter_amended.1 (some ("a"))
      ⟨"MODIFIED", ⟨some ("b"), none, some ("Running")⟩⟩
      [⟨"MODIFIED", ⟨some ("a"), none, some ("Running")⟩⟩]
      (by decide) (by decide)
  · exact c2_identity_filter_amended.2.2.1 (some ("a"))
      ⟨"DELETED", ⟨some ("b"), none, some ("Pending")⟩⟩ []
      (by decide)

/-- C3, counterexample.  The claim says the teardown of every scoped
resource never suppresses the body's in-flight error.  `PodManager.__exit__`
returns the result of `PodManager.delete`, which is True whenever the
delete call returns, and a truthy `__exit__` value makes Python suppress
the body's exception: the with-statement completes normally. -/
theorem c3_counterexample :
    withStatement (.exc ("body error")) (podManagerExit none) = .ok () := by
  rfl

/-- C3, amended.  For `Pod` and `Deployment` scopes, when the remote
delete call returns rather than raising, `__exit__` returns None, so the
body's in-flight error always propagates, and a failed delete wait is
reported by printing instead of raising; `PodManager.__exit__`, by
contrast, returns the delete result (True when the call succeeds), which
suppresses the body's error. -/
theorem c3_teardown_amended :
    (∀ (self : PodObj) (events : List PodEvent) (err : String),
      withStatement (.exc err) (podExit self none events).1 = .exc err) ∧
    (∀ (self : DepObj) (events : List DepEvent) (err : String),
      withStatement (.exc err) (deploymentExit self none events).1 = .exc err) ∧
    (∀ (self : PodObj) (events : List PodEvent),
      (podDeleteWaitLoop self events).1 = false →
      (podExit self none events).2 = ["unable to delete pod"]) ∧
    (∀ (self : DepObj) (events : List DepEvent),
      (deploymentDeleteWaitLoop self events).1 = false →
      (deploymentExit self none events).2 = ["unable to delete deployment"]) ∧
    (∀ err : String, withStatement (.exc err) (podManagerExit none) = .ok ()) := by
  refine ⟨?_, ?_, ?_, ?_, fun _ => rfl⟩
  · intro self events err
    by_cases h : (podDeleteWaitLoop self events).1 <;>
      simp [podExit, podDelete, withStatement, h]
  · intro self events err
    by_cases h : (deploymentDeleteWaitLoop self events).1 <;>
      simp [deploymentExit, deploymentDelete, withStatement, h]
  · intro self events h
    simp [podExit, podDelete, h]
  · intro self events h
    simp [deploymentExit, deploymentDelete, h]

/-- C3, witness: with an empty event stream the delete wait fails, the
failure is printed, and a body error still propagates through
`Pod.__exit__`. -/
theorem c3_witness :
    withStatement (.exc ("boom"))
      (podExit ⟨some ("p"), some ("u"), some ("Running")⟩ none []).1 = .exc ("boom") ∧
    (podExit ⟨some ("p"), some ("u"), some ("Running")⟩ none []).2 =
      ["unable to delete pod"] := by
  constructor
  · exact c3_teardown_amended.1 ⟨some ("p"), some ("u"), some ("Running")⟩ [] ("boom")
  · exact c3_teardown_amended.2.2.1 ⟨some ("p"), some ("u"), some ("Running")⟩ [] rfl

/-- C4, counterexample.  The claim says that when no identity-and-predicate
match and no matching DELETED event arrives, the loop resolves TimedOut.
In `PodManager.ready` a DELETED event for a different pod — not a matching
one — resolves the Deleted outcome (False), not TimedOut (None). -/
theorem c4_counterexample :
    podManagerReady (some ("sample-pod"))
      [⟨"DELETED", ⟨some ("other-pod"), none, some ("Pending")⟩⟩] = some false ∧
    podManagerReady (some ("sample-pod"))
      [⟨"DELETED", ⟨some ("other-pod"), none, some ("Pending")⟩⟩] ≠ none := by
  exact ⟨rfl, by decide⟩

/-- C4, amended.  When no event fires the predicate branch and no DELETED
event is accepted by the loop's DELETED branch (which in `PodManager.ready`
accepts any DELETED event regardless of identity, and in the `Pod.create`
wait loop only matching ones), the loop resolves TimedOut as an ordinary
return value — None for `PodManager.ready`, False for `Pod.create`, with
the watch not stopped — and every run of `PodManager.ready` lands in the
three-value outcome set True (Ready), False (Deleted), None (TimedOut). -/
theorem c4_timeout_amended :
    (∀ (n : Option String) (events : List PodEvent),
      (∀ e ∈ events, ¬(e.object.phase = some ("Running") ∧ e.object.name = n) ∧
        e.type ≠ "DELETED") →
      podManagerReadyAux n events = (none, false)) ∧
    (∀ (n : Option String) (events : List PodEvent),
      (∀ e ∈ events, ¬(e.object.phase = some ("Running") ∧ e.object.name = n) ∧
        ¬(e.type = "DELETED" ∧ e.object.name = n)) →
      podCreateWaitAux n events = (false, false)) ∧
    (∀ (n : Option String) (events : List PodEvent),
      podManagerReady n events = some true ∨ podManagerReady n events = some false ∨
        podManagerReady n events = none) := by
  refine ⟨?_, ?_, ?_⟩
  · intro n events h
    have := podManagerReadyAux_append n events [] h
    simpa using this
  · intro n events h
    have := podCreateWaitAux_append n events [] h
    simpa using this
  · intro n events
    cases hv : podManagerReady n events with
    | none => exact Or.inr (Or.inr rfl)
    | some b => cases b
                · exact Or.inr (Or.inl rfl)
                · exact Or.inl rfl

/-- C4, witness: a stream holding one ignored Pending event makes
`PodManager.ready` return None and the `Pod.create` wait loop return
False, the TimedOut outcomes. -/
theorem c4_witness :
    podManagerReadyAux (some ("p"))
      [⟨"MODIFIED", ⟨some ("p"), none, some ("Pending")⟩⟩] = (none, false) ∧
    podCreateWaitAux (some ("p"))
      [⟨"MODIFIED", ⟨some ("p"), none, some ("Pending")⟩⟩] = (false, false) := by
  constructor
  · exact c4_timeout_amended.1 (some ("p"))
      [⟨"MODIFIED", ⟨some ("p"), none, some ("Pending")⟩⟩] (by decide)
  · exact c4_timeout_amended.2.1 (some ("p"))
      [⟨"MODIFIED", ⟨some ("p"), none, some ("Pending")⟩⟩] (by decide)

/-- C5.  In `PodManager.ready` and in the `Pod.create` wait loop: the loop
resolves Ready (with the watch stopped) exactly at the first event that
matches the name and satisfies the phase-Running predicate — sufficiency
when the earlier events fire no branch, with arbitrary later events; any
in-loop resolution is unaffected by events past the resolving one; and a
Ready result can only arise from such a first matching event. -/
theorem c5_ready_first_match :
    (∀ (n : Option String) (pre post : List PodEvent) (d : PodEvent),
      (∀ e ∈ pre, ¬(e.object.phase = some ("Running") ∧ e.object.name = n) ∧
        e.type ≠ "DELETED") →
      (d.object.phase = some ("Running") ∧ d.object.name = n) →
      podManagerReadyAux n (pre ++ d :: post) = (some true, true)) ∧
    (∀ (n : Option String) (s t : List PodEvent),
      (podManagerReadyAux n s).2 = true →
      podManagerReadyAux n (s ++ t) = podManagerReadyAux n s) ∧
    (∀ (n : Option String) (s : List PodEvent),
      (podManagerReadyAux n s).1 = some true →
      ∃ pre d post, s = pre ++ d :: post ∧
        (d.object.phase = some ("Running") ∧ d.object.name = n) ∧
        ∀ e ∈ pre, ¬(e.object.phase = some ("Running") ∧ e.object.name = n) ∧
          e.type ≠ "DELETED") ∧
    (∀ (n : Option String) (pre post : List PodEvent) (d : PodEvent),
      (∀ e ∈ pre, ¬(e.object.phase = some ("Running") ∧ e.object.name = n) ∧
        ¬(e.type = "DELETED" ∧ e.object.name = n)) →
      (d.object.phase = some ("Running") ∧ d.object.name = n) →
      podCreateWaitAux n (pre ++ d :: post) = (true, true)) ∧
    (∀ (n : Option String) (s t : List PodEvent),
      (podCreateWaitAux n s).2 = true →
      podCreateWaitAux n (s ++ t) = podCreateWaitAux n s) ∧
    (∀ (n : Option String) (s : List PodEvent),
      (podCreateWaitAux n s).1 = true →
      ∃ pre d post, s = pre ++ d :: post ∧
        (d.object.phase = some ("Running") ∧ d.object.name = n) ∧
        ∀ e ∈ pre, ¬(e.object.phase = some ("Running") ∧ e.object.name = n) ∧
          ¬(e.type = "DELETED" ∧ e.object.name = n)) := by
  refine ⟨?_, podManagerReadyAux_stable, podManagerReadyAux_ready_split, ?_,
    podCreateWaitAux_stable, podCreateWaitAux_ready_split⟩
  · intro n pre post d hpre hd
    rw [podManagerReadyAux_append n pre (d :: post) hpre]
    simp [podManagerReadyAux, hd]
  · intro n pre post d hpre hd
    rw [podCreateWaitAux_append n pre (d :: post) hpre]
    simp [podCreateWaitAux, hd]

/-- C5, witness: a Pending event then a Running event — `PodManager.ready`
resolves Ready at the Running event and stops the watch; a trailing event
is never inspected. -/
theorem c5_witness :
    podManagerReadyAux (some ("p"))
      ([⟨"MODIFIED", ⟨some ("p"), none, some ("Pending")⟩⟩] ++
        ⟨"MODIFIED", ⟨some ("p"), none, some ("Running")⟩⟩ ::
        [⟨"DELETED", ⟨some ("p"), none, some ("Running")⟩⟩]) = (some true, true) := by
  exact c5_ready_first_match.1 (some ("p"))
    [⟨"MODIFIED", ⟨some ("p"), none, some ("Pending")⟩⟩]
    [⟨"DELETED", ⟨some ("p"), none, some ("Running")⟩⟩]
    ⟨"MODIFIED", ⟨some ("p"), none, some ("Running")⟩⟩
    (by decide) (by decide)

/-- C6.  A matching event that is neither DELETED nor
predicate-satisfying is silently skipped by `PodManager.ready` and
`DeploymentManager.ready`, and the spec's scenarios hold: a Pending then a
Running pod event resolves Ready on the second, and deployment events with
2 then 3 available replicas against spec replicas 3 resolve Ready on the
second. -/
theorem c6_skip_then_ready :
    (∀ (n : Option String) (e : PodEvent) (rest : List PodEvent),
      e.object.name = n → e.type ≠ "DELETED" → e.object.phase ≠ some ("Running") →
      podManagerReadyAux n (e :: rest) = podManagerReadyAux n rest) ∧
    (∀ (n : Option String) (r : Option Int) (e : DepEvent) (rest : List DepEvent),
      e.object.name = n → e.type ≠ "DELETED" → e.object.availableReplicas ≠ r →
      deploymentManagerReadyAux n r (e :: rest) = deploymentManagerReadyAux n r rest) ∧
    (deploymentManagerReady (some ("nginx-deployment")) (some 3)
      [⟨"MODIFIED", ⟨some ("nginx-deployment"), none, some 3, some 2⟩⟩,
       ⟨"MODIFIED", ⟨some ("nginx-deployment"), none, some 3, some 3⟩⟩] = some true) ∧
    (podManagerReady (some ("sample-pod"))
      [⟨"MODIFIED", ⟨some ("sample-pod"), none, some ("Pending")⟩⟩,
       ⟨"MODIFIED", ⟨some ("sample-pod"), none, some ("Running")⟩⟩] = some true) := by
  refine ⟨?_, ?_, rfl, rfl⟩
  · intro n e rest hn ht hp
    exact podManagerReadyAux_skip n e rest (fun hc => hp hc.1) ht
  · intro n r e rest hn ht hr
    exact deploymentManagerReadyAux_skip n r e rest (fun hc => hr hc.2) ht

/-- C6, witness: a matching MODIFIED Pending event is skipped by
`PodManager.ready`, and a matching MODIFIED event with 2 of 3 replicas is
skipped by `DeploymentManager.ready`. -/
theorem c6_witness :
    podManagerReadyAux (some ("sample-pod"))
      (⟨"MODIFIED", ⟨some ("sample-pod"), none, some ("Pending")⟩⟩ :: []) =
      podManagerReadyAux (some ("sample-pod")) [] ∧
    deploymentManagerReadyAux (some ("nginx-deployment")) (some 3)
      (⟨"MODIFIED", ⟨some ("nginx-deployment"), none, some 3, some 2⟩⟩ :: []) =
      deploymentManagerReadyAux (some ("nginx-deployment")) (some 3) [] := by
  constructor
  · exact c6_skip_then_ready.1 (some ("sample-pod"))
      ⟨"MODIFIED", ⟨some ("sample-pod"), none, some ("Pending")⟩⟩ []
      rfl (by decide) (by decide)
  · exact c6_skip_then_ready.2.1 (some ("nginx-deployment")) (some 3)
      ⟨"MODIFIED", ⟨some ("nginx-deployment"), none, some 3, some 2⟩⟩ []
      rfl (by decide) (by decide)

/-- C7.  The deep merge behind `merge_partial_manifest` is idempotent in
the override document: merging the already-merged manifest with the same
override a second time yields a manifest equal to the once-merged result,
for every well-formed pair (well-formed = object keys pairwise distinct,
as in every document coming from a Python dict). -/
theorem c7_merge_idempotent (b p : JValue) (hp : wfJ p = true) :
    mergeJ (mergeJ b p) p = mergeJ b p :=
  mergeJ_idem_aux (sizeOf p) p le_rfl hp b

/-- C7, witness: a concrete base manifest and override document, with the
override replacing a nested leaf and adding a namespace. -/
theorem c7_witness :
    wfJ (.obj [(("metadata"), .obj [(("namespace"), .str ("default"))]),
      (("spec"), .obj [(("replicas"), .num 3)])]) = true ∧
    mergeJ (mergeJ
        (.obj [(("metadata"), .obj [(("name"), .str ("sample-pod")),
            (("labels"), .obj [(("app"), .str ("l1"))])]),
          (("spec"), .obj [(("replicas"), .num 1),
            (("args"), .arr [.str ("/bin/sh")])])])
        (.obj [(("metadata"), .obj [(("namespace"), .str ("default"))]),
          (("spec"), .obj [(("replicas"), .num 3)])]))
      (.obj [(("metadata"), .obj [(("namespace"), .str ("default"))]),
        (("spec"), .obj [(("replicas"), .num 3)])]) =
    mergeJ
      (.obj [(("metadata"), .obj [(("name"), .str ("sample-pod")),
          (("labels"), .obj [(("app"), .str ("l1"))])]),
        (("spec"), .obj [(("replicas"), .num 1),
          (("args"), .arr [.str ("/bin/sh")])])])
      (.obj [(("metadata"), .obj [(("namespace"), .str ("default"))]),
        (("spec"), .obj [(("replicas"), .num 3)])]) := by
  refine ⟨rfl, ?_⟩
  exact c7_merge_idempotent
    (.obj [(("metadata"), .obj [(("name"), .str ("sample-pod")),
        (("labels"), .obj [(("app"), .str ("l1"))])]),
      (("spec"), .obj [(("replicas"), .num 1),
        (("args"), .arr [.str ("/bin/sh")])])])
    (.obj [(("metadata"), .obj [(("namespace"), .str ("default"))]),
      (("spec"), .obj [(("replicas"), .num 3)])])
    rfl

/-- C8, counterexample.  The claim says a manifest with missing or empty
`metadata.name` or `metadata.namespace` always fails construction with
the validation error.  A manifest binding "metadata" to null has no name,
yet `manifest.get("metadata", ...)` returns the bound None — not the
empty-dict default — and `.get("name")` on None raises AttributeError, so
construction fails with AttributeError instead of the validation
Exception. -/
theorem c8_counterexample :
    podInit (some (.obj [(("metadata"), .null)])) none =
      .error .attributeError ∧
    podInit (some (.obj [(("metadata"), .null)])) none ≠
      .error (.exception
        ("name & namespace both not specified while initializing pod")) := by
  refine ⟨rfl, fun h => ?_⟩
  rw [show podInit (some (.obj [(("metadata"), .null)])) none =
    Except.error PyError.attributeError from rfl] at h
  exact PyError.noConfusion (Except.error.inj h)

/-- C8, amended.  When the metadata access does not raise — "metadata"
absent (so the empty-dict default applies) or bound to a dict — a missing
or falsy `metadata.name` or `metadata.namespace` makes both
`Pod.__init__` and `Deployment.__init__` fail with the validation error;
when "metadata" is bound to a non-dict value the constructors instead
fail with AttributeError.  On every such path the constructor issues no
remote API call and produces no entity value (the result carries only the
error). -/
theorem c8_validation_amended :
    (∀ (body overrideDoc : Option JValue) (nameV : Option JValue),
      metaGet (initManifest defaultManifest body overrideDoc) ("name") = .ok nameV →
      optTruthy nameV = false →
      podInit body overrideDoc = .error (.exception
        ("name & namespace both not specified while initializing pod")) ∧
      deploymentInit body overrideDoc = .error (.exception
        ("name & namespace both not specified while initializing deployment")) ∧
      initRemoteCalls body overrideDoc = []) ∧
    (∀ (body overrideDoc : Option JValue) (nameV nsV : Option JValue),
      metaGet (initManifest defaultManifest body overrideDoc) ("name") = .ok nameV →
      optTruthy nameV = true →
      metaGet (initManifest defaultManifest body overrideDoc) ("namespace") = .ok nsV →
      optTruthy nsV = false →
      podInit body overrideDoc = .error (.exception
        ("name & namespace both not specified while initializing pod")) ∧
      deploymentInit body overrideDoc = .error (.exception
        ("name & namespace both not specified while initializing deployment")) ∧
      initRemoteCalls body overrideDoc = []) ∧
    (∀ (body overrideDoc : Option JValue),
      metaGet (initManifest defaultManifest body overrideDoc) ("name") =
        .error .attributeError →
      podInit body overrideDoc = .error .attributeError ∧
      deploymentInit body overrideDoc = .error .attributeError ∧
      initRemoteCalls body overrideDoc = []) := by
  refine ⟨?_, ?_, ?_⟩
  · intro body ov nv h1 h2
    exact ⟨by simp [podInit, initValidate, h1, h2],
           by simp [deploymentInit, initValidate, h1, h2], rfl⟩
  · intro body ov nv nsv h1 h2 h3 h4
    exact ⟨by simp [podInit, initValidate, h1, h2, h3, h4],
           by simp [deploymentInit, initValidate, h1, h2, h3, h4], rfl⟩
  · intro body ov h1
    exact ⟨by simp [podInit, initValidate, h1],
           by simp [deploymentInit, initValidate, h1], rfl⟩

/-- C8, witness: a manifest with no metadata fails both constructions
with the validation error; one with a name but no namespace fails with
the validation error; one binding metadata to null fails with
AttributeError.  All three leave the remote-call trace empty. -/
theorem c8_witness :
    (podInit (some (.obj [])) none = .error (.exception
        ("name & namespace both not specified while initializing pod")) ∧
      deploymentInit (some (.obj [])) none = .error (.exception
        ("name & namespace both not specified while initializing deployment")) ∧
      initRemoteCalls (some (.obj [])) none = []) ∧
    (podInit (some (.obj [(("metadata"),
        .obj [(("name"), .str ("sample-pod"))])])) none = .error (.exception
        ("name & namespace both not specified while initializing pod")) ∧
      deploymentInit (some (.obj [(("metadata"),
        .obj [(("name"), .str ("sample-pod"))])])) none = .error (.exception
        ("name & namespace both not specified while initializing deployment")) ∧
      initRemoteCalls (some (.obj [(("metadata"),
        .obj [(("name"), .str ("sample-pod"))])])) none = []) ∧
    (podInit (some (.obj [(("metadata"), .null)])) none =
        .error .attributeError ∧
      deploymentInit (some (.obj [(("metadata"), .null)])) none =
        .error .attributeError ∧
      initRemoteCalls (some (.obj [(("metadata"), .null)])) none = []) := by
  refine ⟨?_, ?_, ?_⟩
  · exact c8_validation_amended.1 (some (.obj [])) none none rfl rfl
  · exact c8_validation_amended.2.1
      (some (.obj [(("metadata"), .obj [(("name"), .str ("sample-pod"))])])) none
      (some (.str ("sample-pod"))) none rfl rfl rfl rfl
  · exact c8_validation_amended.2.2 (some (.obj [(("metadata"), .null)])) none rfl

/-- C9.  The claim says every confirmed delete path resets the typed model
to an empty default.  The waiting path of `Deployment.delete` violates it:
on the matching DELETED event it returns True but leaves `self.model`
unchanged (src/model.py lines 270-273 never assign `self.model`), while
the analogous `Pod.delete` path does reset the model — evidence the
omission is a slip. -/
theorem c9_deployment_model_not_reset :
    deploymentDeleteWaitLoop ⟨some ("nginx-deployment"), some ("uid-1"), some 3, none⟩
      [⟨"DELETED", ⟨some ("nginx-deployment"), some ("uid-1"), none, none⟩⟩] =
      (true, ⟨some ("nginx-deployment"), some ("uid-1"), some 3, none⟩) ∧
    (⟨some ("nginx-deployment"), some ("uid-1"), some 3, none⟩ : DepObj) ≠ emptyDepObj ∧
    deploymentDeleteNoWait ⟨some ("nginx-deployment"), some ("uid-1"), some 3, none⟩ =
      (true, emptyDepObj) ∧
    podDeleteWaitLoop ⟨some ("p"), some ("u"), some ("Running")⟩
      [⟨"DELETED", ⟨some ("p"), some ("u"), none⟩⟩] = (true, emptyPodObj) ∧
    podManagerDelete ⟨some ("p"), some ("u"), some ("Running")⟩ = (true, emptyPodObj) := by
  exact ⟨rfl, by decide, rfl, rfl, rfl⟩

/-- C10.  Every `__enter__` returns the handle to the scope body
unconditionally: whatever the event stream does to the readiness wait
(Ready, Deleted or TimedOut), `PodManager.__enter__`, `Pod.__enter__` and
`Deployment.__enter__` all hand the (post-create) entity to the body, a
failed readiness outcome being only printed. -/
theorem c10_enter_returns_self :
    ∀ (resp : PodObj) (events : List PodEvent) (respD : DepObj) (eventsD : List DepEvent),
      (podManagerEnter resp events).1 = some resp ∧
      (podEnter resp events).1 = some resp ∧
      (deploymentEnter respD eventsD).1 = some respD := by
  intro resp events respD eventsD
  refine ⟨?_, ?_, ?_⟩
  · cases hv : podManagerReady resp.name events with
    | none => simp [podManagerEnter, hv]
    | some b => cases b <;> simp [podManagerEnter, hv]
  · by_cases h : podCreateWait resp.name events <;> simp [podEnter, podCreate, h]
  · by_cases h : deploymentCreateWait respD.name respD.replicas eventsD <;>
      simp [deploymentEnter, deploymentCreate, h]

end K8sPython
